import Mathlib

/-!
Verification of the ESPN fighter-data extraction and incremental-merge
pipeline.  The definitions below are shallow embeddings of the Python
source: the pandas-backed `_upsert_data` merge routines
(`src/src/espn_data_processor.py` and
`src/v2/v2_adapted_for_existing_data.py`), the embedded-JSON locator,
normalizer, parser and profile mapper of `a1_compatible_extractor.py`,
and the win-streak loops of `create_a1_compatible_csv` and
`comprehensive_espn_processor.py`.
-/

/-! ## pandas DataFrame model

A cell is `Option String`: `none` models a NaN produced by column
alignment.  A frame is a column list plus rows of cells; pandas aligns
by column name on `concat`, so a row is read through the frame's column
list. -/

set_option maxRecDepth 16384

abbrev Cell := Option String

structure DataFrame where
  cols : List String
  rows : List (List Cell)
deriving DecidableEq, Repr

/-- `df.empty` in pandas: true when either axis has length zero. -/
def DataFrame.isEmptyDf (df : DataFrame) : Bool :=
  df.rows.isEmpty || df.cols.isEmpty

/-- Position of a column label in a column list (pandas label lookup). -/
def colIndex : List String → String → Option Nat
  | [], _ => none
  | c :: cs, t => if c = t then some 0 else (colIndex cs t).map (· + 1)

/-- Read one cell of a row by column label; absent labels give NaN. -/
def cellAt (cols : List String) (row : List Cell) (c : String) : Cell :=
  match colIndex cols c with
  | some i => (row.get? i).getD none
  | none => none

/-- Re-express a row over a new column list (pandas column alignment). -/
def alignRow (oldCols : List String) (row : List Cell) (newCols : List String) : List Cell :=
  newCols.map (cellAt oldCols row)

/-- Column union in order of first appearance (`pd.concat` with the
default `sort=False`). -/
def unionCols (a b : List String) : List String :=
  a ++ b.filter (fun c => !a.contains c)

/-- `pd.concat([a, b], ignore_index=True)`: union the columns, align
every row, stack the rows. -/
def dfConcat (a b : DataFrame) : DataFrame :=
  let cols := unionCols a.cols b.cols
  ⟨cols, a.rows.map (fun r => alignRow a.cols r cols)
       ++ b.rows.map (fun r => alignRow b.cols r cols)⟩

/-- Composite key of a row: the tuple of its key-column cells. -/
def rowKeyOf (cols subset : List String) (row : List Cell) : List Cell :=
  subset.map (cellAt cols row)

/-- `drop_duplicates(keep='first')` core: keep a row iff its key was not
seen in an earlier row; `seen` accumulates the keys already kept. -/
def dropDupFirst (keyOf : List Cell → List Cell) :
    List (List Cell) → List (List Cell) → List (List Cell)
  | [], _ => []
  | r :: rs, seen =>
      if seen.contains (keyOf r) then dropDupFirst keyOf rs seen
      else r :: dropDupFirst keyOf rs (keyOf r :: seen)

/-- `drop_duplicates(keep='last')` core: keep a row iff no later row has
the same key. -/
def dropDupLast (keyOf : List Cell → List Cell) :
    List (List Cell) → List (List Cell)
  | [] => []
  | r :: rs =>
      if rs.any (fun r2 => keyOf r2 == keyOf r) then dropDupLast keyOf rs
      else r :: dropDupLast keyOf rs

/-- `df.drop_duplicates(subset=subsetCols, keep=...)`; raises `KeyError`
when a subset column is absent from the frame. -/
def dropDuplicates (df : DataFrame) (subsetCols : List String) (keepFirst : Bool) :
    Except String DataFrame :=
  if subsetCols.all (fun c => df.cols.contains c) then
    .ok ⟨df.cols,
      if keepFirst then dropDupFirst (rowKeyOf df.cols subsetCols) df.rows []
      else dropDupLast (rowKeyOf df.cols subsetCols) df.rows⟩
  else .error "KeyError"

/-- Key columns chosen by `_upsert_data` in `espn_data_processor.py`:
`['Player', 'Date', 'Opponent']` for the per-fight stat tables, else
`['Name']`. -/
def compositeKeyFor (dataType : String) : List String :=
  if dataType = "clinch" || dataType = "ground" || dataType = "striking"
  then ["Player", "Date", "Opponent"] else ["Name"]

/-- The concat-then-dedup body of `_upsert_data`
(`espn_data_processor.py` lines 861-865); the only failing step is
`drop_duplicates` on a missing key column. -/
def mergeCombined (existing newDf : DataFrame) (dataType : String) :
    Except String DataFrame :=
  dropDuplicates (dfConcat existing newDf) (compositeKeyFor dataType) true

/-- `_upsert_data` of `src/src/espn_data_processor.py` (lines 838-874):
empty incoming returns the existing frame; empty existing adopts the
incoming frame; otherwise concat + `drop_duplicates(keep='first')`;
any exception in the body returns the existing frame. -/
def upsertData (existing newDf : DataFrame) (dataType : String) : DataFrame :=
  if newDf.isEmptyDf then existing
  else if existing.isEmptyDf then newDf
  else
    match mergeCombined existing newDf dataType with
    | .ok merged => merged
    | .error _ => existing

/-- `_upsert_data` of `src/v2/v2_adapted_for_existing_data.py`
(lines 129-157): empty incoming returns `pd.DataFrame()` (an empty
frame, not the existing data); a missing existing file returns the
incoming frame; otherwise concat + `drop_duplicates(keep='last')`,
falling back to the incoming frame if reading/merging raises.  The
source's `if composite_key == ['Name']` branch and its `else` branch
run the same expression, which is preserved here. -/
def upsertDataV2 (newDf : DataFrame) (existingFile : Option DataFrame)
    (compositeKey : List String) : DataFrame :=
  if newDf.isEmptyDf then ⟨[], []⟩
  else
    match existingFile with
    | some existing =>
        let merged :=
          if compositeKey = ["Name"] then
            dropDuplicates (dfConcat existing newDf) compositeKey false
          else
            dropDuplicates (dfConcat existing newDf) compositeKey false
        match merged with
        | .ok m => m
        | .error _ => newDf
    | none => newDf

/-! ## Python value model

`json.loads` yields Python objects; `PyVal` models the ones the mapper
can meet: `None`, `bool`, `int`, `float` (kept as its JSON lexeme, never
computed with), `str`, `list`, `dict`.  A dict is an association list in
insertion order; duplicate JSON keys are resolved last-wins at lookup,
matching how repeated keys collapse in a Python dict. -/

inductive PyVal where
  | pyNone : PyVal
  | pyBool (b : Bool) : PyVal
  | pyInt (n : Int) : PyVal
  | pyFloat (lexeme : String) : PyVal
  | pyStr (s : String) : PyVal
  | pyList (xs : List PyVal) : PyVal
  | pyDict (kvs : List (String × PyVal)) : PyVal

/-- Last binding of a key in an association list (Python dict lookup,
with later duplicate JSON keys overwriting earlier ones). -/
def dictLookupLast (kvs : List (String × PyVal)) (k : String) : Option PyVal :=
  ((kvs.filter (fun p => p.1 = k)).getLast?).map (fun p => p.2)

/-- `v.get(k, d)`: dict lookup with default; any non-dict receiver
raises `AttributeError`. -/
def pyGetE (v : PyVal) (k : String) (d : PyVal) : Except String PyVal :=
  match v with
  | .pyDict kvs => pure ((dictLookupLast kvs k).getD d)
  | _ => .error "AttributeError"

/-- Python `==` against a string literal: true only for an equal `str`. -/
def pyEqStr (v : PyVal) (s : String) : Bool :=
  match v with
  | .pyStr t => t = s
  | _ => false

/-- Python truthiness (`if x:`). -/
def pyTruthy : PyVal → Bool
  | .pyNone => false
  | .pyBool b => b
  | .pyInt n => n != 0
  | .pyFloat lex =>
      (lex.data.takeWhile (fun c => c ≠ 'e' ∧ c ≠ 'E')).any
        (fun c => c.isDigit ∧ c ≠ '0')
  | .pyStr s => !s.isEmpty
  | .pyList xs => !xs.isEmpty
  | .pyDict kvs => !kvs.isEmpty

/-- Comma-joined rendering used by `pyStrOf` on containers. -/
def joinComma (xs : List String) : String :=
  String.intercalate ", " xs

mutual

/-- Python `str()` (`repr` for nested containers), to the fidelity the
mapper needs: exact for `str`, `int`, `bool`, `None`; a float prints its
stored lexeme; containers print in Python's bracketed style. -/
def pyStrOf : PyVal → String
  | .pyNone => "None"
  | .pyBool b => if b then "True" else "False"
  | .pyInt n => toString n
  | .pyFloat lex => lex
  | .pyStr s => s
  | .pyList xs => "[" ++ joinComma (pyReprList xs) ++ "]"
  | .pyDict kvs => "\x7b" ++ joinComma (pyReprKVs kvs) ++ "\x7d"

def pyReprList : List PyVal → List String
  | [] => []
  | x :: xs => pyReprOf x :: pyReprList xs

def pyReprKVs : List (String × PyVal) → List String
  | [] => []
  | (k, v) :: kvs => ("\x27" ++ k ++ "\x27: " ++ pyReprOf v) :: pyReprKVs kvs

def pyReprOf : PyVal → String
  | .pyStr s => "\x27" ++ s ++ "\x27"
  | v => pyStrOfShallow v

def pyStrOfShallow : PyVal → String
  | .pyNone => "None"
  | .pyBool b => if b then "True" else "False"
  | .pyInt n => toString n
  | .pyFloat lex => lex
  | .pyStr s => s
  | .pyList xs => "[" ++ joinComma (pyReprList xs) ++ "]"
  | .pyDict kvs => "\x7b" ++ joinComma (pyReprKVs kvs) ++ "\x7d"

end

/-! ## Embedded-object locator

`_extract_json_from_html` (`a1_compatible_extractor.py` lines 49-97 and
identically `a1_style_processor.py` lines 75-123) first runs
`re.search(r'"prtlCmnApiRsp":\s*\x7b', html)`, then scans forward from the
matched opening brace keeping an escape flag, an inside-string flag and
a brace depth, stopping when the depth returns to zero.  Both the key
miss and an exhausted scan yield `None`. -/

/-- ASCII characters matched by the regex class `\s`. -/
def isPySpace (c : Char) : Bool :=
  c = ' ' || c = '\t' || c = '\n' || c = '\r' || c = '\x0b' || c = '\x0c'

/-- The literal part `"prtlCmnApiRsp":` of the search pattern. -/
def keyLit : List Char :=
  '"' :: "prtlCmnApiRsp".data ++ ['"', ':']

/-- Match a literal character list at the head, returning the rest. -/
def dropLit : List Char → List Char → Option (List Char)
  | [], cs => some cs
  | _ :: _, [] => none
  | l :: ls, c :: cs => if c = l then dropLit ls cs else none

/-- Try the full pattern `"prtlCmnApiRsp":\s*\x7b` at the head of `cs`;
on success return the suffix of `cs` that starts at the opening brace
(the regex match ends just past the brace, and the scan starts on it). -/
def matchKeyHere (cs : List Char) : Option (List Char) :=
  match dropLit keyLit cs with
  | some rest =>
      match rest.dropWhile isPySpace with
      | '\x7b' :: rest2 => some ('\x7b' :: rest2)
      | _ => none
  | none => none

/-- `re.search`: first position (left to right) where the pattern
matches; returns the suffix starting at the matched opening brace. -/
def findKeyBrace : List Char → Option (List Char)
  | [] => none
  | c :: cs =>
      match matchKeyHere (c :: cs) with
      | some suf => some suf
      | none => findKeyBrace cs

/-- The character scan of `_extract_json_from_html`: processes one
character per step carrying the brace depth, the inside-string flag and
the escape flag; a character after a backslash is consumed with no other
effect; an unescaped quote toggles the string flag; braces count only
outside strings, and the scan stops just after the brace that brings the
depth to zero.  Returns the consumed characters (the located span), or
`none` when the text is exhausted first. -/
def scanChars : List Char → Int → Bool → Bool → Option (List Char)
  | [], _, _, _ => none
  | c :: rest, depth, inStr, esc =>
      if esc then (scanChars rest depth inStr false).map (fun t => c :: t)
      else if c = '\\' then (scanChars rest depth inStr true).map (fun t => c :: t)
      else if c = '"' then (scanChars rest depth (!inStr) false).map (fun t => c :: t)
      else if !inStr && c = '\x7b' then
        (scanChars rest (depth + 1) inStr false).map (fun t => c :: t)
      else if !inStr && c = '\x7d' then
        if depth - 1 = 0 then some [c]
        else (scanChars rest (depth - 1) inStr false).map (fun t => c :: t)
      else (scanChars rest depth inStr false).map (fun t => c :: t)

/-- The locator: find the key's opening brace, scan to the matching
close brace; `none` both when the key is absent and when the scan
exhausts the text with nonzero depth. -/
def locateSpan (html : String) : Option String :=
  match findKeyBrace html.data with
  | some suf =>
      match scanChars suf 0 false false with
      | some span => some (String.mk span)
      | none => none
  | none => none

/-! ## Independent brace-balance check

`braceBalance` recounts a span's braces outside string literals with a
plain left fold, independent of the locator's early-exit scan; the
brace-balance invariant is stated against it. -/

structure ScanSt where
  esc : Bool
  inStr : Bool
  depth : Int
deriving DecidableEq, Repr

/-- One character of the string-literal-aware brace count. -/
def stepChar (st : ScanSt) (c : Char) : ScanSt :=
  if st.esc then { st with esc := false }
  else if c = '\\' then { st with esc := true }
  else if c = '"' then { st with inStr := !st.inStr }
  else if !st.inStr && c = '\x7b' then { st with depth := st.depth + 1 }
  else if !st.inStr && c = '\x7d' then { st with depth := st.depth - 1 }
  else st

/-- Net brace count of a text, counted only outside string literals. -/
def braceBalance (s : String) : Int :=
  (s.data.foldl stepChar ⟨false, false, 0⟩).depth

/-! ## Tolerant JSON normalizer

`_extract_json_from_html` applies two `re.sub` passes to the located
span before `json.loads`:
`re.sub(r'//.*?\n', '\n', s)` — each `//` up to and including the next
newline collapses to a newline (no match when no newline follows) — and
`re.sub(r',\s*\x7d', '\x7d', s)` — a comma followed by whitespace and a
closing brace collapses to the brace.  Both passes move left to right
and never rescan replaced text, exactly like `re.sub`. -/

/-- Suffix just after the first newline, if any. -/
def afterNewline : List Char → Option (List Char)
  | [] => none
  | c :: rest => if c = '\n' then some rest else afterNewline rest

/-- First `re.sub` pass: strip `//`-style comments.  Each step either
copies one character or replaces a whole comment (at least two
characters), so fuel equal to the input length always suffices; the
entry point below supplies exactly that. -/
def stripCommentsFuel : Nat → List Char → List Char
  | 0, cs => cs
  | fuel + 1, cs =>
      match cs with
      | '/' :: '/' :: rest =>
          (match afterNewline rest with
           | some r2 => '\n' :: stripCommentsFuel fuel r2
           | none => '/' :: '/' :: rest)
      | c :: rest => c :: stripCommentsFuel fuel rest
      | [] => []

/-- The comment pass over a whole span. -/
def stripComments (cs : List Char) : List Char :=
  stripCommentsFuel cs.length cs

/-- Second `re.sub` pass: rewrite `,` + whitespace + `\x7d` to `\x7d`.
Fuel as in `stripCommentsFuel`. -/
def stripTrailCommaFuel : Nat → List Char → List Char
  | 0, cs => cs
  | fuel + 1, cs =>
      match cs with
      | ',' :: rest =>
          (match rest.dropWhile isPySpace with
           | '\x7d' :: rest2 => '\x7d' :: stripTrailCommaFuel fuel rest2
           | _ => ',' :: stripTrailCommaFuel fuel rest)
      | c :: rest => c :: stripTrailCommaFuel fuel rest
      | [] => []

/-- The trailing-comma pass over a whole span. -/
def stripTrailingCommaPass (cs : List Char) : List Char :=
  stripTrailCommaFuel cs.length cs

/-- The normalization applied to a located span before parsing. -/
def normalizeSpan (s : String) : String :=
  String.mk (stripTrailingCommaPass (stripComments s.data))

/-! ## JSON parser

A strict recursive-descent parser with the semantics of Python's
`json.loads`: double-quoted strings with the standard escapes and
`\uXXXX`, raw control characters rejected, numbers per the JSON grammar
(integral lexemes become Python ints, others floats), `true`/`false`/
`null`, arrays and objects, arbitrary `[ \t\n\r]` whitespace between
tokens, and the whole input consumed.  Recursion is by fuel; the entry
point supplies more fuel than any input can use. -/

/-- Whitespace accepted by `json.loads` between tokens. -/
def skipWsJ (cs : List Char) : List Char :=
  cs.dropWhile (fun c => c = ' ' || c = '\t' || c = '\n' || c = '\r')

/-- Value of one hexadecimal digit. -/
def hexVal (c : Char) : Option Nat :=
  if '0' ≤ c ∧ c ≤ '9' then some (c.toNat - '0'.toNat)
  else if 'a' ≤ c ∧ c ≤ 'f' then some (c.toNat - 'a'.toNat + 10)
  else if 'A' ≤ c ∧ c ≤ 'F' then some (c.toNat - 'A'.toNat + 10)
  else none

/-- Body of a JSON string after the opening quote: returns the decoded
characters and the rest after the closing quote. -/
def parseJStringBody : List Char → Option (List Char × List Char)
  | [] => none
  | '"' :: rest => some ([], rest)
  | '\\' :: '"' :: rest => (parseJStringBody rest).map (fun p => ('"' :: p.1, p.2))
  | '\\' :: '\\' :: rest => (parseJStringBody rest).map (fun p => ('\\' :: p.1, p.2))
  | '\\' :: '/' :: rest => (parseJStringBody rest).map (fun p => ('/' :: p.1, p.2))
  | '\\' :: 'b' :: rest => (parseJStringBody rest).map (fun p => ('\x08' :: p.1, p.2))
  | '\\' :: 'f' :: rest => (parseJStringBody rest).map (fun p => ('\x0c' :: p.1, p.2))
  | '\\' :: 'n' :: rest => (parseJStringBody rest).map (fun p => ('\n' :: p.1, p.2))
  | '\\' :: 'r' :: rest => (parseJStringBody rest).map (fun p => ('\r' :: p.1, p.2))
  | '\\' :: 't' :: rest => (parseJStringBody rest).map (fun p => ('\t' :: p.1, p.2))
  | '\\' :: 'u' :: h1 :: h2 :: h3 :: h4 :: rest =>
      (match hexVal h1, hexVal h2, hexVal h3, hexVal h4 with
       | some a, some b, some c, some d =>
           (parseJStringBody rest).map
             (fun p => (Char.ofNat (((a * 16 + b) * 16 + c) * 16 + d) :: p.1, p.2))
       | _, _, _, _ => none)
  | '\\' :: _ => none
  | c :: rest =>
      if c.toNat < 32 then none
      else (parseJStringBody rest).map (fun p => (c :: p.1, p.2))

/-- Longest digit run at the head. -/
def takeDigits : List Char → (List Char × List Char)
  | [] => ([], [])
  | c :: rest =>
      if c.isDigit then
        let (d, r) := takeDigits rest
        (c :: d, r)
      else ([], c :: rest)

/-- JSON integer part: `0` or a nonzero digit followed by digits. -/
def parseIntPart : List Char → Option (List Char × List Char)
  | [] => none
  | c :: rest =>
      if c = '0' then some (['0'], rest)
      else if c.isDigit then
        let (d, r) := takeDigits rest
        some (c :: d, r)
      else none

/-- JSON fraction part (possibly absent). -/
def parseFracPart : List Char → (List Char × List Char)
  | '.' :: rest =>
      (match takeDigits rest with
       | ([], _) => ([], '.' :: rest)
       | (ds, r) => ('.' :: ds, r))
  | cs => ([], cs)

/-- JSON exponent part (possibly absent). -/
def parseExpPart : List Char → (List Char × List Char)
  | e :: s :: rest =>
      if e = 'e' || e = 'E' then
        if s = '+' || s = '-' then
          (match takeDigits rest with
           | ([], _) => ([], e :: s :: rest)
           | (ds, r) => (e :: s :: ds, r))
        else
          (match takeDigits (s :: rest) with
           | ([], _) => ([], e :: s :: rest)
           | (ds, r) => (e :: ds, r))
      else ([], e :: s :: rest)
  | cs => ([], cs)

/-- Integer value of a signed digit lexeme. -/
def intOfDigits (sign ip : List Char) : Int :=
  let n := ip.foldl (fun acc c => acc * 10 + (c.toNat - '0'.toNat)) 0
  if sign.isEmpty then Int.ofNat n else -(Int.ofNat n)

/-- JSON number: the lexeme becomes a Python int when it has neither
fraction nor exponent, else a float carrying its lexeme. -/
def parseJNumber (cs : List Char) : Option (PyVal × List Char) :=
  let sc : List Char × List Char :=
    match cs with
    | '-' :: r => (['-'], r)
    | _ => ([], cs)
  match parseIntPart sc.2 with
  | none => none
  | some (ip, cs2) =>
      let fp := parseFracPart cs2
      let ep := parseExpPart fp.2
      if fp.1.isEmpty && ep.1.isEmpty then
        some (.pyInt (intOfDigits sc.1 ip), ep.2)
      else
        some (.pyFloat (String.mk (sc.1 ++ ip ++ fp.1 ++ ep.1)), ep.2)

mutual

/-- One JSON value at the head of the input (leading whitespace already
skipped by the caller). -/
def parseJValue (fuel : Nat) (cs : List Char) : Option (PyVal × List Char) :=
  match fuel with
  | 0 => none
  | fuel + 1 =>
      match cs with
      | '"' :: rest => (parseJStringBody rest).map (fun p => (.pyStr (String.mk p.1), p.2))
      | '\x7b' :: rest => parseJObjectStart fuel (skipWsJ rest)
      | '[' :: rest => parseJArrayStart fuel (skipWsJ rest)
      | 't' :: 'r' :: 'u' :: 'e' :: rest => some (.pyBool true, rest)
      | 'f' :: 'a' :: 'l' :: 's' :: 'e' :: rest => some (.pyBool false, rest)
      | 'n' :: 'u' :: 'l' :: 'l' :: rest => some (.pyNone, rest)
      | _ => parseJNumber cs

/-- Object body after the opening brace and whitespace. -/
def parseJObjectStart (fuel : Nat) (cs : List Char) : Option (PyVal × List Char) :=
  match fuel with
  | 0 => none
  | fuel + 1 =>
      match cs with
      | '\x7d' :: rest => some (.pyDict [], rest)
      | _ => (parseJMembers fuel cs).map (fun p => (.pyDict p.1, p.2))

/-- One or more `"key": value` members, ending at the closing brace. -/
def parseJMembers (fuel : Nat) (cs : List Char) :
    Option (List (String × PyVal) × List Char) :=
  match fuel with
  | 0 => none
  | fuel + 1 =>
      match cs with
      | '"' :: rest =>
          (match parseJStringBody rest with
           | some (kcs, rest2) =>
               (match skipWsJ rest2 with
                | ':' :: rest3 =>
                    (match parseJValue fuel (skipWsJ rest3) with
                     | some (v, rest4) =>
                         (match skipWsJ rest4 with
                          | ',' :: rest5 =>
                              (parseJMembers fuel (skipWsJ rest5)).map
                                (fun p => ((String.mk kcs, v) :: p.1, p.2))
                          | '\x7d' :: rest5 => some ([(String.mk kcs, v)], rest5)
                          | _ => none)
                     | none => none)
                | _ => none)
           | none => none)
      | _ => none

/-- Array body after the opening bracket and whitespace. -/
def parseJArrayStart (fuel : Nat) (cs : List Char) : Option (PyVal × List Char) :=
  match fuel with
  | 0 => none
  | fuel + 1 =>
      match cs with
      | ']' :: rest => some (.pyList [], rest)
      | _ => (parseJElems fuel cs).map (fun p => (.pyList p.1, p.2))

/-- One or more array elements, ending at the closing bracket. -/
def parseJElems (fuel : Nat) (cs : List Char) : Option (List PyVal × List Char) :=
  match fuel with
  | 0 => none
  | fuel + 1 =>
      match parseJValue fuel cs with
      | some (v, rest) =>
          (match skipWsJ rest with
           | ',' :: rest2 =>
               (parseJElems fuel (skipWsJ rest2)).map (fun p => (v :: p.1, p.2))
           | ']' :: rest2 => some ([v], rest2)
           | _ => none)
      | none => none

end

/-- `json.loads`: parse one value and require only whitespace after it. -/
def parseJson (s : String) : Option PyVal :=
  match parseJValue (2 * s.length + 8) (skipWsJ s.data) with
  | some (v, rest) => if (skipWsJ rest).isEmpty then some v else none
  | none => none

/-- `_extract_json_from_html` in full: locate the span, normalize it,
parse it; every failure path returns `None`. -/
def extractJsonFromHtml (html : String) : Option PyVal :=
  match locateSpan html with
  | some span =>
      match parseJson (normalizeSpan span) with
      | some v => some v
      | none => none
  | none => none

/-! ## Record mapper

`_extract_a1_profile` (`a1_compatible_extractor.py` lines 99-193).
Python operations that can raise (`.get` on a non-dict, `in` on an
unsupported type, `int()` on a bad literal, iterating a non-sequence)
are modelled in `Except String`; the mapper is the faithful sequential
translation of the source. -/

/-- Digit run to a number, `none` when empty or not all digits. -/
def digitsToNat (ds : List Char) : Option Nat :=
  if ds.isEmpty then none
  else if ds.all Char.isDigit then
    some (ds.foldl (fun a c => a * 10 + (c.toNat - '0'.toNat)) 0)
  else none

/-- Python `int(str)`: strip surrounding whitespace, optional sign,
decimal digits. -/
def pyIntOfString (s : String) : Option Int :=
  let cs := ((s.data.dropWhile isPySpace).reverse.dropWhile isPySpace).reverse
  match cs with
  | '+' :: ds => (digitsToNat ds).map Int.ofNat
  | '-' :: ds => (digitsToNat ds).map (fun n => -(Int.ofNat n))
  | ds => (digitsToNat ds).map Int.ofNat

/-- `int()` raising `ValueError` on failure. -/
def pyIntE (s : String) : Except String Int :=
  match pyIntOfString s with
  | some n => pure n
  | none => .error "ValueError"

/-- `s.split('-')[0]`: the text before the first hyphen. -/
def strTakeToHyphen (s : String) : String :=
  String.mk (s.data.takeWhile (fun c => c ≠ '-'))

/-- Literal-list prefix test. -/
def startsWithLit : List Char → List Char → Bool
  | [], _ => true
  | _ :: _, [] => false
  | l :: ls, c :: cs => c = l && startsWithLit ls cs

/-- Substring containment over character lists. -/
def containsSub (hay needle : List Char) : Bool :=
  match hay with
  | [] => needle.isEmpty
  | _ :: cs => startsWithLit needle hay || containsSub cs needle

/-- Python `k in v` for a string key: dict key test, list membership,
string containment; other receivers raise `TypeError`. -/
def pyInKey (v : PyVal) (k : String) : Except String Bool :=
  match v with
  | .pyDict kvs => pure (kvs.any (fun p => p.1 = k))
  | .pyList xs => pure (xs.any (fun x => pyEqStr x k))
  | .pyStr s => pure (containsSub s.data k.data)
  | _ => .error "TypeError"

/-- Python `v[k]` for a string key: dict item access only. -/
def pySubscript (v : PyVal) (k : String) : Except String PyVal :=
  match v with
  | .pyDict kvs =>
      (match dictLookupLast kvs k with
       | some x => pure x
       | none => .error "KeyError")
  | _ => .error "TypeError"

/-- One iteration of the `for stat in stats_summary['statistics']` loop
(`a1_compatible_extractor.py` lines 115-128): carries
`(record, ko_wins, sub_wins)`. -/
def statLoopStep (acc : PyVal × Int × Int) (stat : PyVal) :
    Except String (PyVal × Int × Int) := do
  let record := acc.1
  let koWins := acc.2.1
  let subWins := acc.2.2
  let statName ← pyGetE stat "name" (.pyStr "")
  let statValue ← pyGetE stat "displayValue" (.pyStr "")
  if pyEqStr statName "wins-losses-draws" then
    pure (statValue, koWins, subWins)
  else if pyEqStr statName "tkos-tkoLosses" then
    match statValue with
    | .pyStr sv =>
        if sv.data.contains '-' then do
          let n ← pyIntE (strTakeToHyphen sv)
          pure (record, n, subWins)
        else pure (record, koWins, subWins)
    | _ => .error "TypeError"
  else if pyEqStr statName "submissions-submissionLosses" then
    match statValue with
    | .pyStr sv =>
        if sv.data.contains '-' then do
          let n ← pyIntE (strTakeToHyphen sv)
          pure (record, koWins, n)
        else pure (record, koWins, subWins)
    | _ => .error "TypeError"
  else
    pure (record, koWins, subWins)

/-- `for stat in xs` over whatever `stats_summary['statistics']` held:
lists iterate; an empty string or dict iterates zero times; everything
else raises on its first step. -/
def pyIterStats (init : PyVal × Int × Int) (v : PyVal) :
    Except String (PyVal × Int × Int) :=
  match v with
  | .pyList xs => xs.foldlM statLoopStep init
  | .pyStr s => if s.isEmpty then pure init else .error "AttributeError"
  | .pyDict kvs => if kvs.isEmpty then pure init else .error "AttributeError"
  | _ => .error "TypeError"

/-- Lines 131-134 of `a1_compatible_extractor.py`: `dec_wins` stays `0`
unless the record contains a hyphen, in which case it is
`int(record.split('-')[0]) - ko_wins - sub_wins`, with no clamping. -/
def deriveDecWins (record : PyVal) (koWins subWins : Int) : Except String Int :=
  match record with
  | .pyStr r =>
      if r.data.contains '-' then do
        let totalWins ← pyIntE (strTakeToHyphen r)
        pure (totalWins - koWins - subWins)
      else pure 0
  | _ => .error "TypeError"

/-- Lines 107-134: the record string and the KO/submission/decision win
counts extracted from `athlete.statsSummary.statistics`. -/
def computeRecordStats (athlete : PyVal) :
    Except String (PyVal × Int × Int × Int) := do
  let statsSummary ← pyGetE athlete "statsSummary" (.pyDict [])
  let init : PyVal × Int × Int := (.pyStr "0-0-0", 0, 0)
  let hasStats ← pyInKey statsSummary "statistics"
  let acc ←
    if hasStats then do
      let stats ← pySubscript statsSummary "statistics"
      pyIterStats init stats
    else pure init
  let decWins ← deriveDecWins acc.1 acc.2.1 acc.2.2
  pure (acc.1, acc.2.1, acc.2.2, decWins)

/-- `x.get('text', '') if isinstance(x, dict) else str(x)` — the pattern
used for `weightClass` and `stance`; also used with another key for
`citizenshipCountry`. -/
def dictTextOrStr (v : PyVal) (k : String) : Except String PyVal :=
  match v with
  | .pyDict _ => pyGetE v k (.pyStr "")
  | _ => pure (.pyStr (pyStrOf v))

/-- The profile dict literal of `_extract_a1_profile` (lines 138-190),
with the computed pieces substituted in, in the source's field order. -/
def profileFields (displayName weightClassText record : PyVal)
    (koWins subWins decWins : Int) (active stance age height weight reach
    teamName : PyVal) : List (String × PyVal) :=
  [
    ("Name", displayName),
    ("Division_Title", weightClassText),
    ("Division_Record", record),
    ("Wins_by_Knockout", .pyInt koWins),
    ("Wins_by_Submission", .pyInt subWins),
    ("First_Round_Finishes", .pyInt 0),
    ("Wins_by_Decision", .pyInt decWins),
    ("Striking_accuracy", .pyStr ""),
    ("Sig_Strikes_Landed", .pyStr ""),
    ("Sig_Strikes_Attempted", .pyStr ""),
    ("Takedown_Accuracy", .pyStr ""),
    ("Takedowns_Landed", .pyStr ""),
    ("Takedowns_Attempted", .pyStr ""),
    ("Sig_Str_Landed_Per_Min", .pyStr ""),
    ("Sig_Str_Absorbed_Per_Min", .pyStr ""),
    ("Takedown_avg_Per_15_Min", .pyStr ""),
    ("Submission_avg_Per_15_Min", .pyStr ""),
    ("Sig_Str_Defense", .pyStr ""),
    ("Takedown_Defense", .pyStr ""),
    ("Knockdown_Avg", .pyStr ""),
    ("Average_fight_time", .pyStr ""),
    ("Sig_Str_By_Position_Standing", .pyStr ""),
    ("Sig_Str_By_Position_Clinch", .pyStr ""),
    ("Sig_Str_By_Position_Ground", .pyStr ""),
    ("Win_by_Method_KO_TKO", .pyInt koWins),
    ("Win_by_Method_DEC", .pyInt decWins),
    ("Win_by_Method_SUB", .pyInt subWins),
    ("Sig_Str_by_target_Head_Strike_Percentage", .pyStr ""),
    ("Sig_Str_by_target_Head_Strike_Count", .pyStr ""),
    ("Sig_Str_by_target_Body_Strike_Percentage", .pyStr ""),
    ("Sig_Str_by_target_Body_Strike_Count", .pyStr ""),
    ("Sig_Str_by_target_Leg_Strike_Percentage", .pyStr ""),
    ("Sig_Str_by_target_Leg_Strike_Count", .pyStr ""),
    ("Status", .pyStr (if pyTruthy active then "Active" else "Inactive")),
    ("Place_of_Birth", .pyStr ""),
    ("Fighting_style", stance),
    ("Age", age),
    ("Height", height),
    ("Weight", weight),
    ("Octagon_Debut", .pyStr ""),
    ("Reach", reach),
    ("Leg_reach", .pyStr ""),
    ("Trains_at", teamName),
    ("Fight_Win_Streak", .pyInt 0),
    ("Title_Defenses", .pyInt 0),
    ("Former_Champion", .pyBool false)]

/-- `_extract_a1_profile`: the flat A1-compatible profile record, in the
source's field order. -/
def extractA1Profile (jsonData : PyVal) :
    Except String (List (String × PyVal)) := do
  let athlete ← pyGetE jsonData "athlete" (.pyDict [])
  let displayName ← pyGetE athlete "displayName" (.pyStr "")
  let weightClass ← pyGetE athlete "weightClass" (.pyDict [])
  let weightClassText ← dictTextOrStr weightClass "text"
  let rs ← computeRecordStats athlete
  let record := rs.1
  let koWins := rs.2.1
  let subWins := rs.2.2.1
  let decWins := rs.2.2.2
  let stanceData ← pyGetE athlete "stance" (.pyDict [])
  let stance ← dictTextOrStr stanceData "text"
  let countryData ← pyGetE athlete "citizenshipCountry" (.pyDict [])
  let _country ← dictTextOrStr countryData "abbreviation"
  let active ← pyGetE athlete "active" (.pyBool false)
  let age ← pyGetE athlete "age" (.pyStr "")
  let height ← pyGetE athlete "displayHeight" (.pyStr "")
  let weight ← pyGetE athlete "displayWeight" (.pyStr "")
  let reach ← pyGetE athlete "displayReach" (.pyStr "")
  let team ← pyGetE athlete "team" (.pyDict [])
  let teamName ← pyGetE team "name" (.pyStr "")
  pure (profileFields displayName weightClassText record koWins subWins decWins
    active stance age height weight reach teamName)

/-- Field access on the produced profile record. -/
def profileGet (p : List (String × PyVal)) (k : String) : Option PyVal :=
  (p.find? (fun q => q.1 = k)).map (fun q => q.2)

/-! ## Win-streak loops

`create_a1_compatible_csv` (`a1_compatible_extractor.py` lines 229-241)
iterates the most-recent-first fight list, incrementing the streak on a
`'W'` result and breaking on anything else; inside the same loop a won
title fight bumps the title-defense count and sets the former-champion
flag.  `_calculate_fighter_stats` (`comprehensive_espn_processor.py`
lines 257-263) runs the same break-on-non-win loop over
`fight.get('result')`. -/

structure FightEntry where
  result : PyVal
  titleFight : PyVal

/-- The loop body of `create_a1_compatible_csv`, carrying
`(win_streak, title_defenses, former_champion)`. -/
def streakGo : List FightEntry → Nat → Nat → Bool → Nat × Nat × Bool
  | [], w, t, c => (w, t, c)
  | f :: rest, w, t, c =>
      if pyEqStr f.result "W" then
        if pyTruthy f.titleFight && pyEqStr f.result "W" then
          streakGo rest (w + 1) (t + 1) true
        else
          streakGo rest (w + 1) t c
      else (w, t, c)

/-- Win streak, title defenses and former-champion flag computed by
`create_a1_compatible_csv`. -/
def calcStreakStats (fights : List FightEntry) : Nat × Nat × Bool :=
  streakGo fights 0 0 false

/-- The win-streak loop of `_calculate_fighter_stats` in
`comprehensive_espn_processor.py`, over `fight.get('result')` values. -/
def comprStreakGo : List PyVal → Nat → Nat
  | [], w => w
  | r :: rest, w => if pyEqStr r "W" then comprStreakGo rest (w + 1) else w

/-- Win streak computed by `_calculate_fighter_stats`. -/
def calcWinStreakCompr (results : List PyVal) : Nat :=
  comprStreakGo results 0

/-! ## Lemmas about the locator scan -/

/-- A successful scan, recounted by the independent fold, ends at brace
depth exactly zero. -/
theorem scanChars_foldl : ∀ (cs : List Char) (d : Int) (i e : Bool)
    (span : List Char), scanChars cs d i e = some span →
    (span.foldl stepChar ⟨e, i, d⟩).depth = 0 := by
  intro cs
  induction cs with
  | nil => intro d i e span h; simp [scanChars] at h
  | cons c rest ih =>
      intro d i e span h
      simp only [scanChars] at h
      split_ifs at h with he hbs hq hob hcb hdz
      · obtain ⟨t, ht, rfl⟩ := Option.map_eq_some'.mp h
        have hst : stepChar ⟨e, i, d⟩ c = ⟨false, i, d⟩ := by
          simp [stepChar, he]
        simpa [hst] using ih d i false t ht
      · obtain ⟨t, ht, rfl⟩ := Option.map_eq_some'.mp h
        have hst : stepChar ⟨e, i, d⟩ c = ⟨true, i, d⟩ := by
          simp [stepChar, he, hbs]
        simpa [hst] using ih d i true t ht
      · obtain ⟨t, ht, rfl⟩ := Option.map_eq_some'.mp h
        have hst : stepChar ⟨e, i, d⟩ c = ⟨false, !i, d⟩ := by
          simp [stepChar, he, hbs, hq]
        simpa [hst] using ih d (!i) false t ht
      · obtain ⟨t, ht, rfl⟩ := Option.map_eq_some'.mp h
        have hi : i = false := by
          cases i <;> simp_all
        have hcc : c = '\x7b' := by
          cases hx : (c = '\x7b' : Bool) <;> simp_all
        have hst : stepChar ⟨e, i, d⟩ c = ⟨false, i, d + 1⟩ := by
          simp [stepChar, he, hbs, hq, hi, hcc]
        simpa [hst] using ih (d + 1) i false t ht
      · injection h with h
        subst h
        have hi : i = false := by
          cases i <;> simp_all
        have hcc : c = '\x7d' := by
          cases hx : (c = '\x7d' : Bool) <;> simp_all
        have hst : stepChar ⟨e, i, d⟩ c = ⟨false, i, d - 1⟩ := by
          simp [stepChar, he, hbs, hq, hi, hcc]
        simp [hst, hdz]
      · obtain ⟨t, ht, rfl⟩ := Option.map_eq_some'.mp h
        have hi : i = false := by
          cases i <;> simp_all
        have hcc : c = '\x7d' := by
          cases hx : (c = '\x7d' : Bool) <;> simp_all
        have hst : stepChar ⟨e, i, d⟩ c = ⟨false, i, d - 1⟩ := by
          simp [stepChar, he, hbs, hq, hi, hcc]
        simpa [hst] using ih (d - 1) i false t ht
      · obtain ⟨t, ht, rfl⟩ := Option.map_eq_some'.mp h
        have he' : e = false := by simpa using he
        subst he'
        have hst : stepChar ⟨false, i, d⟩ c = ⟨false, i, d⟩ := by
          simp only [stepChar]
          rw [if_neg (by simp), if_neg (by simpa using hbs),
            if_neg (by simpa using hq), if_neg (by simpa using hob),
            if_neg (by simpa using hcb)]
        simpa [hst] using ih d i false t ht

/-- A successful scan's span ends with the closing brace. -/
theorem scanChars_last : ∀ (cs : List Char) (d : Int) (i e : Bool)
    (span : List Char), scanChars cs d i e = some span →
    ∃ front, span = front ++ ['\x7d'] := by
  intro cs
  induction cs with
  | nil => intro d i e span h; simp [scanChars] at h
  | cons c rest ih =>
      intro d i e span h
      simp only [scanChars] at h
      split_ifs at h with he hbs hq hob hcb hdz
      · obtain ⟨t, ht, rfl⟩ := Option.map_eq_some'.mp h
        obtain ⟨f, rfl⟩ := ih _ _ _ t ht
        exact ⟨c :: f, rfl⟩
      · obtain ⟨t, ht, rfl⟩ := Option.map_eq_some'.mp h
        obtain ⟨f, rfl⟩ := ih _ _ _ t ht
        exact ⟨c :: f, rfl⟩
      · obtain ⟨t, ht, rfl⟩ := Option.map_eq_some'.mp h
        obtain ⟨f, rfl⟩ := ih _ _ _ t ht
        exact ⟨c :: f, rfl⟩
      · obtain ⟨t, ht, rfl⟩ := Option.map_eq_some'.mp h
        obtain ⟨f, rfl⟩ := ih _ _ _ t ht
        exact ⟨c :: f, rfl⟩
      · injection h with h
        subst h
        have hcc : c = '\x7d' := by
          cases hx : (c = '\x7d' : Bool) <;> simp_all
        exact ⟨[], by simp [hcc]⟩
      · obtain ⟨t, ht, rfl⟩ := Option.map_eq_some'.mp h
        obtain ⟨f, rfl⟩ := ih _ _ _ t ht
        exact ⟨c :: f, rfl⟩
      · obtain ⟨t, ht, rfl⟩ := Option.map_eq_some'.mp h
        obtain ⟨f, rfl⟩ := ih _ _ _ t ht
        exact ⟨c :: f, rfl⟩

/-- A successful scan's span starts with the first scanned character. -/
theorem scanChars_head : ∀ (cs : List Char) (d : Int) (i e : Bool)
    (span : List Char), scanChars cs d i e = some span →
    span.head? = cs.head? := by
  intro cs
  cases cs with
  | nil => intro d i e span h; simp [scanChars] at h
  | cons c rest =>
      intro d i e span h
      simp only [scanChars] at h
      split_ifs at h with he hbs hq hob hcb hdz
      all_goals
        first
          | (obtain ⟨t, ht, rfl⟩ := Option.map_eq_some'.mp h; simp)
          | (injection h with h; subst h; simp)

/-- A successful key match hands back a suffix starting at `'\x7b'`. -/
theorem matchKeyHere_brace {cs suf : List Char}
    (h : matchKeyHere cs = some suf) : ∃ r, suf = '\x7b' :: r := by
  unfold matchKeyHere at h
  split at h
  · split at h
    · injection h with h
      exact ⟨_, h.symm⟩
    · exact absurd h (by simp)
  · exact absurd h (by simp)

/-- `re.search` for the key pattern lands on an opening brace. -/
theorem findKeyBrace_brace : ∀ (cs suf : List Char),
    findKeyBrace cs = some suf → ∃ r, suf = '\x7b' :: r := by
  intro cs
  induction cs with
  | nil => intro suf h; simp [findKeyBrace] at h
  | cons c rest ih =>
      intro suf h
      simp only [findKeyBrace] at h
      cases hm : matchKeyHere (c :: rest) with
      | some s =>
          rw [hm] at h
          injection h with h
          exact h ▸ matchKeyHere_brace hm
      | none =>
          rw [hm] at h
          exact ih suf h

/-- Any span the locator returns recounts to brace balance zero. -/
theorem locateSpan_balanced (html span : String)
    (h : locateSpan html = some span) : braceBalance span = 0 := by
  unfold locateSpan at h
  cases hf : findKeyBrace html.data with
  | none => simp [hf] at h
  | some suf =>
      simp only [hf] at h
      cases hs : scanChars suf 0 false false with
      | none => simp [hs] at h
      | some sp =>
          simp only [hs, Option.some.injEq] at h
          subst h
          exact scanChars_foldl suf 0 false false sp hs

/-- Any span the locator returns starts with the opening brace and ends
with its matching closing brace. -/
theorem locateSpan_shape (html span : String)
    (h : locateSpan html = some span) :
    span.data.head? = some '\x7b' ∧ ∃ front, span.data = front ++ ['\x7d'] := by
  unfold locateSpan at h
  cases hf : findKeyBrace html.data with
  | none => simp [hf] at h
  | some suf =>
      simp only [hf] at h
      cases hs : scanChars suf 0 false false with
      | none => simp [hs] at h
      | some sp =>
          simp only [hs, Option.some.injEq] at h
          subst h
          refine ⟨?_, scanChars_last suf 0 false false sp hs⟩
          obtain ⟨r, rfl⟩ := findKeyBrace_brace html.data suf hf
          simpa using scanChars_head ('\x7b' :: r) 0 false false sp hs

/-! ## Concrete inputs used by counterexamples and witnesses -/

/-- A one-row profile table. -/
def exNameTable : DataFrame := ⟨["Name"], [[some "Alice"]]⟩

/-- An incoming frame with the profile schema and no rows. -/
def emptyIncoming : DataFrame := ⟨["Name"], []⟩

/-- Existing profile row `A/1` for the conflict example. -/
def conflictExisting : DataFrame := ⟨["Name", "X"], [[some "A", some "1"]]⟩

/-- Incoming profile row `A/2`, same key as `conflictExisting`. -/
def conflictIncoming : DataFrame := ⟨["Name", "X"], [[some "A", some "2"]]⟩

/-- Incoming frame holding two rows with the same `Name` key. -/
def dupIncoming : DataFrame := ⟨["Name"], [[some "A"], [some "A"]]⟩

/-- Existing frame without the `Name` column. -/
def noKeyExisting : DataFrame := ⟨["A"], [[some "x"]]⟩

/-- Incoming frame without the `Name` column. -/
def noKeyIncoming : DataFrame := ⟨["B"], [[some "y"]]⟩

/-- HTML with the key, a string value containing a brace, and trailing
text after the object. -/
def c3Html : String := "zz\"prtlCmnApiRsp\": \x7b\"team\": \"a\x7db\", \"n\": 2\x7d tail"

/-- The span located inside `c3Html`. -/
def c3Span : String := "\x7b\"team\": \"a\x7db\", \"n\": 2\x7d"

/-- The athlete object of the spec's decision-win clamp test: record
`5-2-0`, KO wins `3`, submission wins `4`. -/
def c4Json : PyVal :=
  .pyDict [("athlete", .pyDict [("displayName", .pyStr "X"),
    ("statsSummary", .pyDict [("statistics", .pyList [
      .pyDict [("name", .pyStr "wins-losses-draws"),
               ("displayValue", .pyStr "5-2-0")],
      .pyDict [("name", .pyStr "tkos-tkoLosses"),
               ("displayValue", .pyStr "3-1")],
      .pyDict [("name", .pyStr "submissions-submissionLosses"),
               ("displayValue", .pyStr "4-0")]])])])]

/-- The spec's end-to-end example page, embedded in surrounding HTML. -/
def c7Html : String :=
  "<html><script>window.x=\x7b\"page\":\x7b\"prtlCmnApiRsp\":\x7b\"athlete\":\x7b\"displayName\":\"Test Fighter\",\"statsSummary\":\x7b\"statistics\":[\x7b\"name\":\"wins-losses-draws\",\"displayValue\":\"10-2-0\"\x7d]\x7d\x7d\x7d\x7d;</script></html>"

/-- A span that is valid JSON except for a trailing comma before `]`. -/
def c8BadSpan : String := "\x7b\"a\": [1,]\x7d"

/-- A span that is valid JSON except for a trailing comma before `\x7d`. -/
def c8OkSpan : String := "\x7b\"a\": 1,\x7d"

/-- A span with a `//` line comment. -/
def c8CommentSpan : String := "\x7b\"a\": 1 //c\n\x7d"

/-- HTML where the key is present but the object is truncated. -/
def c9Truncated : String := "a\"prtlCmnApiRsp\": \x7b\"x\": \x7b\"y\": 1\x7d"

/-- HTML without the key. -/
def c9NoKey : String := "<html>no api payload here</html>"

/-- Most-recent-first history `W, W, L, W` (no title fights). -/
def historyWWLW : List FightEntry :=
  [⟨.pyStr "W", .pyBool false⟩, ⟨.pyStr "W", .pyBool false⟩,
   ⟨.pyStr "L", .pyBool false⟩, ⟨.pyStr "W", .pyBool false⟩]

/-- Most-recent-first history `L, W, W`. -/
def historyLWW : List FightEntry :=
  [⟨.pyStr "L", .pyBool false⟩, ⟨.pyStr "W", .pyBool false⟩,
   ⟨.pyStr "W", .pyBool false⟩]

/-! ## Claim C1 -/

/-- C1 counterexample: the claim quantifies over both `_upsert_data`
variants, but the v2 variant applied to an empty incoming set returns
`pd.DataFrame()` — an empty frame — rather than the existing table. -/
theorem upsert_empty_incoming_v2_truncates :
    upsertDataV2 emptyIncoming (some exNameTable) ["Name"] ≠ exNameTable ∧
    upsertDataV2 emptyIncoming (some exNameTable) ["Name"] = ⟨[], []⟩ := by
  exact ⟨by decide, rfl⟩

/-- C1 (amended): with an empty incoming set, `espn_data_processor`'s
`_upsert_data` returns the existing table unchanged for every table and
data type; the v2 variant instead returns an empty frame (its caller
skips saving an empty result, so the durable file is left untouched,
but the returned table is not `T`). -/
theorem upsert_empty_incoming_is_noop (T newDf : DataFrame) (dt : String)
    (exFile : Option DataFrame) (keys : List String)
    (h : newDf.isEmptyDf = true) :
    upsertData T newDf dt = T ∧ upsertDataV2 newDf exFile keys = ⟨[], []⟩ := by
  constructor
  · simp [upsertData, h]
  · simp [upsertDataV2, h]

/-- Witness for C1's amended theorem at a concrete table. -/
theorem upsert_empty_incoming_is_noop_witness :
    emptyIncoming.isEmptyDf = true ∧
    (upsertData exNameTable emptyIncoming "profiles" = exNameTable ∧
     upsertDataV2 emptyIncoming (some exNameTable) ["Name"] = ⟨[], []⟩) :=
  ⟨rfl, upsert_empty_incoming_is_noop exNameTable emptyIncoming "profiles"
    (some exNameTable) ["Name"] rfl⟩

/-! ## Claim C3 -/

/-- HTML embedding a syntactically valid object whose string value
contains `//`, with a newline later inside the span. -/
def c3BadHtml : String :=
  "q\"prtlCmnApiRsp\": \x7b\"a\": \"x//y\",\n \"b\": 1\x7d end"

/-- The span located inside `c3BadHtml`. -/
def c3BadSpan : String := "\x7b\"a\": \"x//y\",\n \"b\": 1\x7d"

/-- C3 counterexample: the located span of `c3BadHtml` is brace-balanced
and is itself valid JSON (so the page embeds a syntactically valid
object and the locator does not signal not-found), yet its text does
not parse after normalization — the `//`-comment regex eats from the
`//` inside the string value through the next newline, taking the
string's closing quote with it — so the claim's "returns a span whose
text parses as JSON after normalization, or signals not-found" fails. -/
theorem locator_valid_span_fails_after_normalization :
    locateSpan c3BadHtml = some c3BadSpan ∧
    braceBalance c3BadSpan = 0 ∧
    parseJson c3BadSpan =
      some (.pyDict [("a", .pyStr "x//y"), ("b", .pyInt 1)]) ∧
    normalizeSpan c3BadSpan = "\x7b\"a\": \"x\n \"b\": 1\x7d" ∧
    parseJson (normalizeSpan c3BadSpan) = none ∧
    extractJsonFromHtml c3BadHtml = none :=
  ⟨rfl, rfl, rfl, rfl, rfl, rfl⟩

/-- C3 (amended): any span the locator returns runs from the opening
brace to its matching closing brace and its braces, counted outside
string literals, balance to exactly zero — the locator never returns a
span with mismatched braces, and every failure is signalled as
not-found.  The normalized text of a returned span need not parse as
JSON, however: normalization can corrupt a syntactically valid span
whose string content contains `//` with a newline later in the span, as
the counterexample records, and the extraction then returns not-found. -/
theorem locator_balanced_or_notfound (html span : String)
    (h : locateSpan html = some span) :
    braceBalance span = 0 ∧ span.data.head? = some '\x7b' ∧
    (∃ front, span.data = front ++ ['\x7d']) := by
  obtain ⟨hhead, hlast⟩ := locateSpan_shape html span h
  exact ⟨locateSpan_balanced html span h, hhead, hlast⟩

/-- Witness for C3's amended theorem at a page whose embedded object
holds a brace inside a string literal. -/
theorem locator_balanced_or_notfound_witness :
    locateSpan c3Html = some c3Span ∧
    (braceBalance c3Span = 0 ∧ c3Span.data.head? = some '\x7b' ∧
     (∃ front, c3Span.data = front ++ ['\x7d'])) :=
  ⟨rfl, locator_balanced_or_notfound c3Html c3Span rfl⟩

/-! ## Claim C4 -/

/-- C4 counterexample: at the spec's own clamp test (record `5-2-0`,
KO wins `3`, submission wins `4`) the mapper emits decision wins `-2`,
a negative value — the code never clamps. -/
theorem decision_wins_clamp_missing :
    (match extractA1Profile c4Json with
     | .ok p => profileGet p "Wins_by_Decision"
     | .error _ => none) = some (PyVal.pyInt (-2)) ∧ (-2 : Int) < 0 :=
  ⟨rfl, by decide⟩

/-- C4 (amended): whenever the record string contains a hyphen and its
leading field parses as an integer, derived decision wins are exactly
`total − KO − submission`, with no clamping — inconsistent inputs give a
negative count (they do not crash). -/
theorem decision_wins_subtraction_formula (r : String) (k s t : Int)
    (hhy : r.data.contains '-' = true)
    (ht : pyIntOfString (strTakeToHyphen r) = some t) :
    deriveDecWins (.pyStr r) k s = .ok (t - k - s) := by
  simp only [deriveDecWins, hhy, eq_self_iff_true, if_true, pyIntE, ht,
    pure_bind]
  rfl

/-- Witness for C4's amended theorem at the spec's clamp test input. -/
theorem decision_wins_subtraction_formula_witness :
    ("5-2-0".data.contains '-' = true ∧
     pyIntOfString (strTakeToHyphen "5-2-0") = some 5) ∧
    deriveDecWins (.pyStr "5-2-0") 3 4 = .ok (-2) := by
  refine ⟨⟨rfl, rfl⟩, ?_⟩
  have h := decision_wins_subtraction_formula "5-2-0" 3 4 5 rfl rfl
  simpa using h

/-! ## Claim C6 -/

/-- The `create_a1_compatible_csv` streak loop counts exactly the
leading run of `'W'` results. -/
theorem streakGo_takeWhile (fights : List FightEntry) :
    ∀ (w t : Nat) (c : Bool), (streakGo fights w t c).1 =
      w + (fights.takeWhile (fun f => pyEqStr f.result "W")).length := by
  induction fights with
  | nil => intro w t c; simp [streakGo]
  | cons f rest ih =>
      intro w t c
      by_cases hw : pyEqStr f.result "W"
      · by_cases ht : pyTruthy f.titleFight
        · simp [streakGo, hw, ht, List.takeWhile_cons, ih]
          omega
        · simp [streakGo, hw, ht, List.takeWhile_cons, ih]
          omega
      · simp [streakGo, hw, List.takeWhile_cons]

/-- The `_calculate_fighter_stats` streak loop counts exactly the
leading run of `'W'` results. -/
theorem comprStreakGo_takeWhile (results : List PyVal) :
    ∀ w : Nat, comprStreakGo results w =
      w + (results.takeWhile (fun r => pyEqStr r "W")).length := by
  induction results with
  | nil => intro w; simp [comprStreakGo]
  | cons r rest ih =>
      intro w
      by_cases hw : pyEqStr r "W"
      · simp [comprStreakGo, hw, List.takeWhile_cons, ih]
        omega
      · simp [comprStreakGo, hw, List.takeWhile_cons]

/-- C6: both win-streak computations count consecutive `'W'` results
from the most recent fight and stop at the first non-win of any kind;
in particular `[W, W, L, W]` yields `2` and `[L, W, W]` yields `0`. -/
theorem win_streak_stops_at_first_non_win :
    (∀ fights : List FightEntry, (calcStreakStats fights).1 =
      (fights.takeWhile (fun f => pyEqStr f.result "W")).length) ∧
    (∀ results : List PyVal, calcWinStreakCompr results =
      (results.takeWhile (fun r => pyEqStr r "W")).length) ∧
    (calcStreakStats historyWWLW).1 = 2 ∧ (calcStreakStats historyLWW).1 = 0 ∧
    calcWinStreakCompr (historyWWLW.map FightEntry.result) = 2 ∧
    calcWinStreakCompr (historyLWW.map FightEntry.result) = 0 := by
  refine ⟨fun fights => ?_, fun results => ?_, rfl, rfl, rfl, rfl⟩
  · simpa using streakGo_takeWhile fights 0 0 false
  · simpa using comprStreakGo_takeWhile results 0

/-! ## Claim C7 -/

/-- C7: running locate, normalize, parse and map on the spec's example
page yields a profile with `Name = "Test Fighter"` and
`Division_Record = "10-2-0"`. -/
theorem end_to_end_test_fighter_profile :
    (match extractJsonFromHtml c7Html with
     | some j =>
         (match extractA1Profile j with
          | .ok p => (profileGet p "Name", profileGet p "Division_Record")
          | .error _ => (none, none))
     | none => (none, none)) =
    (some (PyVal.pyStr "Test Fighter"), some (PyVal.pyStr "10-2-0")) := rfl

/-! ## Claim C8 -/

/-- C8 counterexample: a trailing comma before a closing `]` survives
normalization, so a span that is valid JSON except for that comma fails
to parse — the extraction returns not-found instead of succeeding. -/
theorem trailing_comma_before_bracket_not_removed :
    normalizeSpan c8BadSpan = c8BadSpan ∧
    parseJson (normalizeSpan c8BadSpan) = none := ⟨rfl, rfl⟩

/-- C8 (amended): normalization strips `//` line comments (through the
following newline) and rewrites `,` + whitespace + `\x7d` to `\x7d`, but
leaves a comma before `]` alone: the brace and comment cases parse after
normalization while the bracket case still fails. -/
theorem normalization_strips_comma_before_brace_only :
    (normalizeSpan c8OkSpan = "\x7b\"a\": 1\x7d" ∧
     parseJson (normalizeSpan c8OkSpan) = some (.pyDict [("a", .pyInt 1)])) ∧
    (normalizeSpan c8CommentSpan = "\x7b\"a\": 1 \n\x7d" ∧
     parseJson (normalizeSpan c8CommentSpan) = some (.pyDict [("a", .pyInt 1)])) ∧
    (normalizeSpan c8BadSpan = c8BadSpan ∧
     parseJson (normalizeSpan c8BadSpan) = none) :=
  ⟨⟨rfl, rfl⟩, ⟨rfl, rfl⟩, rfl, rfl⟩

/-! ## Claim C9 -/

/-- C9 counterexample: a truncated page whose key is present produces
exactly the same result (`None`) as a page without the key — the caller
cannot distinguish the unbalanced condition from not-found. -/
theorem unbalanced_indistinguishable_from_notfound :
    extractJsonFromHtml c9Truncated = extractJsonFromHtml c9NoKey ∧
    extractJsonFromHtml c9Truncated = none ∧
    locateSpan c9Truncated = none ∧ locateSpan c9NoKey = none :=
  ⟨rfl, rfl, rfl, rfl⟩

/-- C9 (amended): the locator either fails with `None` — the same value
for an absent key and for a scan that exhausts the text at nonzero
depth, so the two conditions are not distinguishable — or returns a span
with balance exactly zero; it never returns a partial span. -/
theorem locator_none_or_balanced :
    (∀ html : String, locateSpan html = none ∨
      ∃ span, locateSpan html = some span ∧ braceBalance span = 0) ∧
    locateSpan c9Truncated = none ∧ locateSpan c9NoKey = none ∧
    extractJsonFromHtml c9Truncated = extractJsonFromHtml c9NoKey := by
  refine ⟨fun html => ?_, rfl, rfl, rfl⟩
  cases h : locateSpan html with
  | none => exact Or.inl rfl
  | some span => exact Or.inr ⟨span, rfl, locateSpan_balanced html span h⟩

/-! ## Claim C10 -/

/-- C10: when the merge body raises (here: `drop_duplicates` on a frame
missing a key column), `_upsert_data` returns the existing table
unchanged rather than propagating the exception or a partial merge. -/
theorem upsert_exception_returns_existing (existing newDf : DataFrame)
    (dt : String) (e : String)
    (hnew : newDf.isEmptyDf = false) (hex : existing.isEmptyDf = false)
    (herr : mergeCombined existing newDf dt = .error e) :
    upsertData existing newDf dt = existing := by
  simp [upsertData, hnew, hex, herr]

/-- Witness for C10 at frames that both lack the `Name` key column. -/
theorem upsert_exception_returns_existing_witness :
    (noKeyIncoming.isEmptyDf = false ∧ noKeyExisting.isEmptyDf = false ∧
     mergeCombined noKeyExisting noKeyIncoming "profiles" =
       .error "KeyError") ∧
    upsertData noKeyExisting noKeyIncoming "profiles" = noKeyExisting :=
  ⟨⟨rfl, rfl, rfl⟩, upsert_exception_returns_existing noKeyExisting
    noKeyIncoming "profiles" "KeyError" rfl rfl rfl⟩

/-! ## Lemmas about the merge -/

theorem contains_eq_true_iff {α : Type} [BEq α] [LawfulBEq α]
    {l : List α} {a : α} : l.contains a = true ↔ a ∈ l := by
  simp [List.contains]

/-- In a duplicate-free column list, looking an entry up by label finds
its own position. -/
theorem colIndex_getElem : ∀ (cols : List String), cols.Nodup →
    ∀ (i : Nat) (hi : i < cols.length), colIndex cols cols[i] = some i := by
  intro cols
  induction cols with
  | nil => intro _ i hi; simp at hi
  | cons c cs ih =>
      intro hnd i hi
      cases i with
      | zero => simp [colIndex]
      | succ j =>
          have hj : j < cs.length := by simpa using hi
          have hcm : c ∉ cs := (List.nodup_cons.mp hnd).1
          have hne : ¬ c = cs[j] := fun hc => hcm (hc ▸ cs.getElem_mem hj)
          simp only [List.getElem_cons_succ, colIndex]
          rw [if_neg hne, ih (List.nodup_cons.mp hnd).2 j hj]
          rfl

/-- Aligning a well-formed row to its own duplicate-free column list is
the identity. -/
theorem alignRow_self {cols : List String} {row : List Cell}
    (hnd : cols.Nodup) (hlen : row.length = cols.length) :
    alignRow cols row cols = row := by
  apply List.ext_getElem
  · simp [alignRow, hlen]
  · intro i h1 h2
    have hic : i < cols.length := by simpa [alignRow] using h1
    simp only [alignRow, List.getElem_map, cellAt, colIndex_getElem cols hnd i hic]
    have hir : i < row.length := by omega
    simp [List.get?_eq_getElem?, List.getElem?_eq_getElem hir]

/-- Unioning a column list with itself changes nothing. -/
theorem unionCols_self (c : List String) : unionCols c c = c := by
  have hz : c.filter (fun x => !c.contains x) = [] := by
    apply List.filter_eq_nil_iff.mpr
    intro a ha
    simp [ha]
  simp [unionCols, hz]

/-- Concatenating two well-formed frames over the same duplicate-free
schema stacks the rows unchanged. -/
theorem dfConcat_same_cols (a b : DataFrame) (hcols : b.cols = a.cols)
    (hnd : a.cols.Nodup) (hla : ∀ r ∈ a.rows, r.length = a.cols.length)
    (hlb : ∀ r ∈ b.rows, r.length = b.cols.length) :
    dfConcat a b = ⟨a.cols, a.rows ++ b.rows⟩ := by
  simp only [dfConcat, hcols, unionCols_self]
  congr 1
  have h1 : ∀ r ∈ a.rows, alignRow a.cols r a.cols = id r :=
    fun r hr => alignRow_self hnd (hla r hr)
  have h2 : ∀ r ∈ b.rows, alignRow a.cols r a.cols = id r := by
    intro r hr
    exact alignRow_self hnd (by rw [hlb r hr, hcols])
  rw [List.map_congr_left h1, List.map_congr_left h2, List.map_id, List.map_id]

/-- `keep='first'` over a concatenation whose left block has
duplicate-free keys disjoint from `seen` keeps the left block whole and
filters the right block against it. -/
theorem dropDupFirst_append (keyOf : List Cell → List Cell) :
    ∀ (A B seen : List (List Cell)),
      (A.map keyOf).Nodup → (∀ a ∈ A, keyOf a ∉ seen) →
      dropDupFirst keyOf (A ++ B) seen =
        A ++ dropDupFirst keyOf B ((A.map keyOf).reverse ++ seen) := by
  intro A
  induction A with
  | nil => intro B seen _ _; simp
  | cons a A' ih =>
      intro B seen hnd hdisj
      simp only [List.map_cons] at hnd
      have hna : ¬ seen.contains (keyOf a) = true := by
        intro hc
        exact hdisj a (by simp) (contains_eq_true_iff.mp hc)
      have hnd' := (List.nodup_cons.mp hnd).2
      have hnotin := (List.nodup_cons.mp hnd).1
      have hdisj' : ∀ x ∈ A', keyOf x ∉ keyOf a :: seen := by
        intro x hx hmem
        rcases List.mem_cons.mp hmem with hk | hk
        · exact hnotin (hk ▸ List.mem_map_of_mem keyOf hx)
        · exact hdisj x (List.mem_cons_of_mem a hx) hk
      simp only [List.cons_append, dropDupFirst, if_neg hna, List.append_eq]
      rw [ih B (keyOf a :: seen) hnd' hdisj']
      simp [List.reverse_cons, List.append_assoc]

/-- The accumulated `seen` list only matters up to membership. -/
theorem dropDupFirst_seen_congr (keyOf : List Cell → List Cell) :
    ∀ (rows s1 s2 : List (List Cell)), (∀ k, k ∈ s1 ↔ k ∈ s2) →
      dropDupFirst keyOf rows s1 = dropDupFirst keyOf rows s2 := by
  intro rows
  induction rows with
  | nil => intro s1 s2 _; rfl
  | cons r rs ih =>
      intro s1 s2 hiff
      have hc : s1.contains (keyOf r) = s2.contains (keyOf r) := by
        by_cases h1 : keyOf r ∈ s1
        · have h2 := (hiff _).mp h1
          rw [contains_eq_true_iff.mpr h1, (contains_eq_true_iff.mpr h2).symm]
        · have h2 : keyOf r ∉ s2 := fun h => h1 ((hiff _).mpr h)
          have e1 : s1.contains (keyOf r) = false := by
            cases hx : s1.contains (keyOf r)
            · rfl
            · exact absurd (contains_eq_true_iff.mp hx) h1
          have e2 : s2.contains (keyOf r) = false := by
            cases hx : s2.contains (keyOf r)
            · rfl
            · exact absurd (contains_eq_true_iff.mp hx) h2
          rw [e1, e2]
      simp only [dropDupFirst, hc]
      split
      · exact ih s1 s2 hiff
      · exact congrArg (r :: ·)
          (ih (keyOf r :: s1) (keyOf r :: s2) (by intro k; simp [hiff k]))

/-- `keep='first'` output has pairwise-distinct keys, none in `seen`. -/
theorem dropDupFirst_keys_nodup (keyOf : List Cell → List Cell) :
    ∀ (rows seen : List (List Cell)),
      ((dropDupFirst keyOf rows seen).map keyOf).Nodup ∧
      ∀ r ∈ dropDupFirst keyOf rows seen, keyOf r ∉ seen := by
  intro rows
  induction rows with
  | nil => intro seen; simp [dropDupFirst]
  | cons r rs ih =>
      intro seen
      by_cases hc : seen.contains (keyOf r) = true
      · simp only [dropDupFirst]
        rw [if_pos hc]
        exact ih seen
      · obtain ⟨ihn, ihs⟩ := ih (keyOf r :: seen)
        simp only [dropDupFirst, if_neg hc, List.map_cons]
        refine ⟨List.nodup_cons.mpr ⟨?_, ihn⟩, ?_⟩
        · intro hmem
          obtain ⟨x, hx, hkx⟩ := List.mem_map.mp hmem
          exact ihs x hx (by simp [hkx])
        · intro x hx
          rcases List.mem_cons.mp hx with rfl | hx'
          · intro hmem
            exact hc (contains_eq_true_iff.mpr hmem)
          · intro hmem
            exact ihs x hx' (List.mem_cons_of_mem _ hmem)

/-- When every key column is present, `drop_duplicates(keep='first')`
succeeds with the deduplicated frame. -/
theorem dropDuplicates_ok (df : DataFrame) (subset : List String)
    (hkeys : ∀ c ∈ subset, c ∈ df.cols) :
    dropDuplicates df subset true =
      .ok ⟨df.cols, dropDupFirst (rowKeyOf df.cols subset) df.rows []⟩ := by
  simp only [dropDuplicates, List.all_eq_true]
  rw [if_pos (fun c hcs => contains_eq_true_iff.mpr (hkeys c hcs))]
  simp

/-! ## Claim C2 -/

/-- Incoming frame with one conflicting and one fresh row. -/
def conflictIncoming2 : DataFrame :=
  ⟨["Name", "X"], [[some "A", some "2"], [some "B", some "3"]]⟩

/-- C2 counterexample: the claim covers both `_upsert_data` variants,
but the v2 variant uses `keep='last'`, so on a key conflict the incoming
row replaces the existing one instead of the existing row winning. -/
theorem upsert_v2_incoming_overwrites :
    upsertDataV2 conflictIncoming (some conflictExisting) ["Name"] =
      ⟨["Name", "X"], [[some "A", some "2"]]⟩ ∧
    upsertDataV2 conflictIncoming (some conflictExisting) ["Name"] ≠
      ⟨["Name", "X"], [[some "A", some "1"]]⟩ := ⟨rfl, by decide⟩

/-- C2 (amended): for `espn_data_processor`'s `_upsert_data` — both
frames nonempty and sharing a duplicate-free schema, key columns
present, existing keys unique — the result is the existing rows followed
by exactly those incoming rows whose composite key occurs neither among
the existing rows' keys nor among earlier incoming rows; existing rows
win every conflict.  The v2 variant instead keeps the incoming row
(`keep='last'`), as the counterexample records. -/
theorem upsert_espn_first_seen_wins (existing newDf : DataFrame)
    (dt : String)
    (hex : existing.isEmptyDf = false) (hnew : newDf.isEmptyDf = false)
    (hcols : newDf.cols = existing.cols) (hnd : existing.cols.Nodup)
    (hlE : ∀ r ∈ existing.rows, r.length = existing.cols.length)
    (hlN : ∀ r ∈ newDf.rows, r.length = newDf.cols.length)
    (hkeys : ∀ c ∈ compositeKeyFor dt, c ∈ existing.cols)
    (hku : (existing.rows.map
      (rowKeyOf existing.cols (compositeKeyFor dt))).Nodup) :
    upsertData existing newDf dt =
      ⟨existing.cols,
        existing.rows ++
          dropDupFirst (rowKeyOf existing.cols (compositeKeyFor dt))
            newDf.rows
            (existing.rows.map
              (rowKeyOf existing.cols (compositeKeyFor dt)))⟩ := by
  have hcc := dfConcat_same_cols existing newDf hcols hnd hlE hlN
  have hsteps :
      dropDupFirst (rowKeyOf existing.cols (compositeKeyFor dt))
        (existing.rows ++ newDf.rows) [] =
      existing.rows ++
        dropDupFirst (rowKeyOf existing.cols (compositeKeyFor dt))
          newDf.rows
          (existing.rows.map
            (rowKeyOf existing.cols (compositeKeyFor dt))) := by
    rw [dropDupFirst_append _ _ _ _ hku
      (fun a _ => List.not_mem_nil (rowKeyOf existing.cols
        (compositeKeyFor dt) a))]
    rw [List.append_nil]
    exact congrArg (existing.rows ++ ·)
      (dropDupFirst_seen_congr _ newDf.rows _ _ (fun k => by simp))
  simp only [upsertData, hnew, hex, Bool.false_eq_true, if_false]
  unfold mergeCombined
  rw [hcc, dropDuplicates_ok ⟨existing.cols, existing.rows ++ newDf.rows⟩
    (compositeKeyFor dt) hkeys]
  simpa using hsteps

/-- Witness for C2's amended theorem: one conflicting and one fresh
incoming row against a one-row table. -/
theorem upsert_espn_first_seen_wins_witness :
    (conflictExisting.isEmptyDf = false ∧
     conflictIncoming2.isEmptyDf = false ∧
     conflictIncoming2.cols = conflictExisting.cols ∧
     conflictExisting.cols.Nodup ∧
     (∀ r ∈ conflictExisting.rows,
       r.length = conflictExisting.cols.length) ∧
     (∀ r ∈ conflictIncoming2.rows,
       r.length = conflictIncoming2.cols.length) ∧
     (∀ c ∈ compositeKeyFor "profiles", c ∈ conflictExisting.cols) ∧
     (conflictExisting.rows.map
       (rowKeyOf conflictExisting.cols (compositeKeyFor "profiles"))).Nodup) ∧
    upsertData conflictExisting conflictIncoming2 "profiles" =
      ⟨conflictExisting.cols,
        conflictExisting.rows ++
          dropDupFirst (rowKeyOf conflictExisting.cols
            (compositeKeyFor "profiles")) conflictIncoming2.rows
            (conflictExisting.rows.map (rowKeyOf conflictExisting.cols
              (compositeKeyFor "profiles")))⟩ :=
  ⟨⟨rfl, rfl, rfl, by decide, by decide, by decide, by decide, by decide⟩,
   upsert_espn_first_seen_wins conflictExisting conflictIncoming2 "profiles"
     rfl rfl rfl (by decide) (by decide) (by decide) (by decide) (by decide)⟩

/-! ## Claim C5 -/

/-- An empty profile table (the first-run base). -/
def emptyBase : DataFrame := ⟨["Name"], []⟩

/-- C5 counterexample: with an empty existing table, `_upsert_data`
returns the incoming frame as-is, so duplicate composite keys inside the
incoming records survive into the result table. -/
theorem upsert_empty_base_keeps_duplicate_keys :
    upsertData emptyBase dupIncoming "profiles" = dupIncoming ∧
    ¬ ((upsertData emptyBase dupIncoming "profiles").rows.map
        (rowKeyOf dupIncoming.cols ["Name"])).Nodup := ⟨rfl, by decide⟩

/-- C5 (amended): when both frames are nonempty and the key columns are
present, the merged table has no two rows with the same composite key;
the deduplication is skipped only on the empty-existing (and
empty-incoming) short-circuit paths, where incoming duplicates survive
as the counterexample records. -/
theorem upsert_merge_keys_nodup (existing newDf : DataFrame) (dt : String)
    (hex : existing.isEmptyDf = false) (hnew : newDf.isEmptyDf = false)
    (hkeys : ∀ c ∈ compositeKeyFor dt, c ∈ (dfConcat existing newDf).cols) :
    ((upsertData existing newDf dt).rows.map
      (rowKeyOf (dfConcat existing newDf).cols (compositeKeyFor dt))).Nodup := by
  simp only [upsertData, hnew, hex, Bool.false_eq_true, if_false]
  unfold mergeCombined
  rw [dropDuplicates_ok _ _ hkeys]
  exact (dropDupFirst_keys_nodup _ _ _).1

/-- Witness for C5's amended theorem. -/
theorem upsert_merge_keys_nodup_witness :
    (conflictExisting.isEmptyDf = false ∧
     conflictIncoming2.isEmptyDf = false ∧
     (∀ c ∈ compositeKeyFor "profiles",
       c ∈ (dfConcat conflictExisting conflictIncoming2).cols)) ∧
    ((upsertData conflictExisting conflictIncoming2 "profiles").rows.map
      (rowKeyOf (dfConcat conflictExisting conflictIncoming2).cols
        (compositeKeyFor "profiles"))).Nodup :=
  ⟨⟨rfl, rfl, by decide⟩,
   upsert_merge_keys_nodup conflictExisting conflictIncoming2 "profiles"
     rfl rfl (by decide)⟩
